import Mathlib

/-!
Verification of the task-management domain core.

Shallow embedding of the repository's domain layer:
`src/domain/value_objects/deadline.py`, `src/domain/entities/task.py`,
`src/domain/entities/project.py`, `src/infrastructure/events/event_bus.py`,
`src/infrastructure/events/handlers.py`, and the application services
`src/application/services/task_service.py`.

Modelling conventions:
* `TaskId` / `ProjectId` are opaque string-backed identifiers with value
  equality; they are modelled as `Nat`.
* A `datetime` instant is modelled as an `Int` (seconds); `Deadline` wraps
  one, mirroring the `Deadline` value object.  Methods that call
  `datetime.now` in Python (`is_within_hours`, `is_overdue`) take the
  current instant `now` as an explicit argument.
* Python `set` fields are `Finset Nat`; `discard` is `Finset.erase`.
* A method that can `raise` is modelled as returning `Except DomainError α`;
  in the source every `raise` happens before any mutation of `self`, so the
  error branch carries no updated aggregate (the caller's aggregate is
  unchanged).
* Aggregates carry their transient `_events` list; `_add_event` is an
  append at the end of the list.
-/

namespace TaskMgmt

/-- `Deadline` value object (`deadline.py`): wraps a single instant. -/
structure Deadline where
  value : Int
deriving DecidableEq, Repr

/-- `Deadline.is_after`: strict comparison `self.value > other.value`. -/
def Deadline.is_after (d other : Deadline) : Bool :=
  d.value > other.value

/-- `Deadline.is_before`: strict comparison `self.value < other.value`. -/
def Deadline.is_before (d other : Deadline) : Bool :=
  d.value < other.value

/-- `Deadline.is_within_hours`: `0 <= (value - now) <= hours * 3600`
(the source computes the difference in seconds via `total_seconds()`). -/
def Deadline.is_within_hours (d : Deadline) (now : Int) (hours : Int) : Bool :=
  decide (0 ≤ d.value - now) && decide (d.value - now ≤ hours * 3600)

/-- `Deadline.is_overdue`: `value < now`. -/
def Deadline.is_overdue (d : Deadline) (now : Int) : Bool :=
  d.value < now

/-- Domain events (`domain/events/`): payload fields as in the source
dataclasses (the `occurred_at` wall-clock stamp carried by the Python base
class is irrelevant to every handler and is omitted). -/
inductive DomainEvent where
  | projectCreated (project_id : Nat) (title : String) (deadline : Deadline)
  | projectCompleted (project_id : Nat)
  | projectReopened (project_id : Nat) (triggering_task_id : Nat)
  | projectDeadlineChanged (project_id : Nat) (old_deadline new_deadline : Deadline)
      (affected_task_ids : List Nat)
  | taskCreated (task_id : Nat) (title : String) (deadline : Deadline)
      (project_id : Option Nat)
  | taskCompleted (task_id : Nat) (completed_at : Int) (project_id : Option Nat)
  | taskReopened (task_id : Nat) (project_id : Option Nat)
  | taskAssignedToProject (task_id : Nat) (project_id : Nat)
  | taskDeadlineChanged (task_id : Nat) (old_deadline new_deadline : Deadline)
      (project_id : Option Nat)
  | taskRemovedFromProject (task_id : Nat) (project_id : Nat)
deriving DecidableEq, Repr

/-- Domain exceptions (`domain/exceptions/`), with their structured payload
(the human-readable message strings are built from these fields). -/
inductive DomainError where
  | taskNotFound (task_id : Nat)
  | taskAlreadyCompleted (task_id : Nat)
  | projectNotFound (project_id : Nat)
  | projectNotCompletable (project_id : Nat) (incomplete_count : Int)
  | deadlineConstraintViolation (offending limit : Deadline)
deriving DecidableEq, Repr

/-- `Task` aggregate root (`task.py`): id, title, description, deadline,
completed flag, optional project link, pending events. -/
structure Task where
  id : Nat
  title : String
  description : String
  deadline : Deadline
  completed : Bool
  project_id : Option Nat
  events : List DomainEvent
deriving DecidableEq, Repr

/-- `Task.create`: completed=false, emits `TaskCreatedEvent`. -/
def Task.create (id : Nat) (title description : String) (deadline : Deadline)
    (project_id : Option Nat) : Task :=
  { id := id, title := title, description := description, deadline := deadline,
    completed := false, project_id := project_id,
    events := [DomainEvent.taskCreated id title deadline project_id] }

/-- `Task.complete`: raises `TaskAlreadyCompletedError` if already completed,
else sets completed and emits `TaskCompletedEvent` stamped `now`. -/
def Task.complete (t : Task) (now : Int) : Except DomainError Task :=
  if t.completed then
    Except.error (DomainError.taskAlreadyCompleted t.id)
  else
    Except.ok { t with
      completed := true,
      events := t.events ++ [DomainEvent.taskCompleted t.id now t.project_id] }

/-- `Task.reopen`: no-op when not completed, else clears the flag and emits
`TaskReopenedEvent`. -/
def Task.reopen (t : Task) : Task :=
  if !t.completed then t
  else
    { t with
      completed := false,
      events := t.events ++ [DomainEvent.taskReopened t.id t.project_id] }

/-- `Task.assign_to_project`: raises `DeadlineConstraintViolation` when the
task deadline is strictly after the project deadline, else sets the project
link and emits `TaskAssignedToProjectEvent`. -/
def Task.assign_to_project (t : Task) (project_id : Nat)
    (project_deadline : Deadline) : Except DomainError Task :=
  if t.deadline.is_after project_deadline then
    Except.error (DomainError.deadlineConstraintViolation t.deadline project_deadline)
  else
    Except.ok { t with
      project_id := some project_id,
      events := t.events ++ [DomainEvent.taskAssignedToProject t.id project_id] }

/-- `Task.adjust_deadline`: when a project deadline is supplied (a `Deadline`
instance is always truthy in Python) and the new deadline is strictly after
it, raises `DeadlineConstraintViolation`; otherwise replaces the deadline and
emits `TaskDeadlineChangedEvent`. -/
def Task.adjust_deadline (t : Task) (new_deadline : Deadline)
    (project_deadline : Option Deadline) : Except DomainError Task :=
  match project_deadline with
  | some pd =>
    if new_deadline.is_after pd then
      Except.error (DomainError.deadlineConstraintViolation new_deadline pd)
    else
      Except.ok { t with
        deadline := new_deadline,
        events := t.events ++
          [DomainEvent.taskDeadlineChanged t.id t.deadline new_deadline t.project_id] }
  | none =>
    Except.ok { t with
      deadline := new_deadline,
      events := t.events ++
        [DomainEvent.taskDeadlineChanged t.id t.deadline new_deadline t.project_id] }

/-- `Task.update_details`: in-place update of the supplied fields, no event. -/
def Task.update_details (t : Task) (title description : Option String) : Task :=
  let t1 := match title with
    | some s => { t with title := s }
    | none => t
  match description with
  | some s => { t1 with description := s }
  | none => t1

/-- `Task.is_overdue` (derived property): `not completed and deadline overdue`. -/
def Task.is_overdue (t : Task) (now : Int) : Bool :=
  !t.completed && t.deadline.is_overdue now

/-- `Project` aggregate root (`project.py`): id, title, description, deadline,
completed flag, member task-id set, completed-task-id subset, pending events.
The `__init__` constructor starts with both sets empty. -/
structure Project where
  id : Nat
  title : String
  description : String
  deadline : Deadline
  completed : Bool
  task_ids : Finset Nat
  completed_task_ids : Finset Nat
  events : List DomainEvent
deriving DecidableEq

/-- `Project.__init__`: both id sets start empty, no pending events. -/
def Project.init (id : Nat) (title description : String) (deadline : Deadline)
    (completed : Bool) : Project :=
  { id := id, title := title, description := description, deadline := deadline,
    completed := completed, task_ids := ∅, completed_task_ids := ∅, events := [] }

/-- `Project.create`: `__init__` with completed=false plus a
`ProjectCreatedEvent`. -/
def Project.create (id : Nat) (title description : String)
    (deadline : Deadline) : Project :=
  { Project.init id title description deadline false with
    events := [DomainEvent.projectCreated id title deadline] }

/-- `Project.add_task`: adds to the membership set; then, if the project is
completed and the task being added is not, clears the completed flag and
emits `ProjectReopenedEvent` with the triggering task id. -/
def Project.add_task (p : Project) (task_id : Nat) (is_completed : Bool) : Project :=
  let p1 := { p with task_ids := insert task_id p.task_ids }
  if p1.completed && !is_completed then
    { p1 with
      completed := false,
      events := p1.events ++ [DomainEvent.projectReopened p1.id task_id] }
  else p1

/-- `Project._add_task_for_reconstruction`: membership add only, no
reopening check, no event. -/
def Project.add_task_for_reconstruction (p : Project) (task_id : Nat) : Project :=
  { p with task_ids := insert task_id p.task_ids }

/-- `Project.remove_task`: discards the id from both the membership set and
the completed subset; no event. -/
def Project.remove_task (p : Project) (task_id : Nat) : Project :=
  { p with
    task_ids := p.task_ids.erase task_id,
    completed_task_ids := p.completed_task_ids.erase task_id }

/-- `Project.mark_task_completed`: adds the id to the completed subset only
when it is a current member; no event. -/
def Project.mark_task_completed (p : Project) (task_id : Nat) : Project :=
  if task_id ∈ p.task_ids then
    { p with completed_task_ids := insert task_id p.completed_task_ids }
  else p

/-- `Project.mark_task_reopened`: discards the id from the completed subset;
no event. -/
def Project.mark_task_reopened (p : Project) (task_id : Nat) : Project :=
  { p with completed_task_ids := p.completed_task_ids.erase task_id }

/-- `Project.update_deadline`: replaces the deadline and emits
`ProjectDeadlineChangedEvent` carrying the caller-computed violating ids. -/
def Project.update_deadline (p : Project) (new_deadline : Deadline)
    (violating_task_ids : List Nat) : Project :=
  { p with
    deadline := new_deadline,
    events := p.events ++
      [DomainEvent.projectDeadlineChanged p.id p.deadline new_deadline violating_task_ids] }

/-- `Project.can_be_completed`: true when the membership set is empty,
else true iff the two set sizes coincide. -/
def Project.can_be_completed (p : Project) : Bool :=
  if p.task_ids = ∅ then true
  else decide (p.completed_task_ids.card = p.task_ids.card)

/-- `Project.complete`: raises `ProjectNotCompletableError` carrying
`len(task_ids) - len(completed_task_ids)` when not completable, else sets
the flag and emits `ProjectCompletedEvent`. -/
def Project.complete (p : Project) : Except DomainError Project :=
  if !p.can_be_completed then
    Except.error (DomainError.projectNotCompletable p.id
      ((p.task_ids.card : Int) - (p.completed_task_ids.card : Int)))
  else
    Except.ok { p with
      completed := true,
      events := p.events ++ [DomainEvent.projectCompleted p.id] }

/-- `Project.reopen_due_to_task`: when completed and the id is a member,
clears the flag and emits `ProjectReopenedEvent`; otherwise no-op. -/
def Project.reopen_due_to_task (p : Project) (task_id : Nat) : Project :=
  if p.completed && decide (task_id ∈ p.task_ids) then
    { p with
      completed := false,
      events := p.events ++ [DomainEvent.projectReopened p.id task_id] }
  else p

/-- `Project.update_details`: in-place update of the supplied fields, no event. -/
def Project.update_details (p : Project) (title description : Option String) : Project :=
  let p1 := match title with
    | some s => { p with title := s }
    | none => p
  match description with
  | some s => { p1 with description := s }
  | none => p1

/-- `Project.completed_task_count` property. -/
def Project.completed_task_count (p : Project) : Nat :=
  p.completed_task_ids.card

/-- `Project.total_task_count` property. -/
def Project.total_task_count (p : Project) : Nat :=
  p.task_ids.card

/-- The concrete kind of an event: the Python bus keys its handler table by
`type(event)`. -/
inductive EventKind where
  | projectCreated
  | projectCompleted
  | projectReopened
  | projectDeadlineChanged
  | taskCreated
  | taskCompleted
  | taskReopened
  | taskAssignedToProject
  | taskDeadlineChanged
  | taskRemovedFromProject
deriving DecidableEq, Repr

/-- `type(event)`. -/
def DomainEvent.kind : DomainEvent → EventKind
  | .projectCreated _ _ _ => .projectCreated
  | .projectCompleted _ => .projectCompleted
  | .projectReopened _ _ => .projectReopened
  | .projectDeadlineChanged _ _ _ _ => .projectDeadlineChanged
  | .taskCreated _ _ _ _ => .taskCreated
  | .taskCompleted _ _ _ => .taskCompleted
  | .taskReopened _ _ => .taskReopened
  | .taskAssignedToProject _ _ => .taskAssignedToProject
  | .taskDeadlineChanged _ _ _ _ => .taskDeadlineChanged
  | .taskRemovedFromProject _ _ => .taskRemovedFromProject

/-- A registered handler (`Callable`): an identity (for tracing invocations)
and a body that either returns normally (`Except.ok ()`) or raises
(`Except.error msg`).  Python handlers are opaque callables to the bus; the
bus observes only normal return versus raised exception. -/
structure Handler where
  hid : Nat
  run : DomainEvent → Except String Unit

/-- `EventBus` (`event_bus.py`): `_handlers`, a table from concrete event
kind to the list of registered handlers; `_handlers.get(event_type, [])` is
`handlers k` with the empty list as the default. -/
structure EventBus where
  handlers : EventKind → List Handler

/-- A bus with no registrations. -/
def EventBus.empty : EventBus :=
  ⟨fun _ => []⟩

/-- `EventBus.register`: appends the handler to the kind's list
(registration order preserved, several handlers per kind allowed). -/
def EventBus.register (bus : EventBus) (event_type : EventKind) (handler : Handler) :
    EventBus :=
  ⟨fun k => if k = event_type then bus.handlers k ++ [handler] else bus.handlers k⟩

/-- The bus's inner loop over one event's handler list: each handler is
invoked inside `try/except Exception`, so its outcome — normal return or
raised exception — is recorded (logged) and never re-raised, and the loop
always continues with the next handler. -/
def invokeHandlers (hs : List Handler) (e : DomainEvent) :
    List (Nat × Except String Unit) :=
  match hs with
  | [] => []
  | h :: rest => (h.hid, h.run e) :: invokeHandlers rest e

/-- `EventBus.publish`: for each event in list order, looks up the handlers
registered for its concrete kind and invokes them in registration order via
the catching inner loop.  The return value is the invocation trace (handler
id and outcome per invocation); the function's total type reflects that
`publish` itself never raises to its caller. -/
def EventBus.publish (bus : EventBus) (events : List DomainEvent) :
    List (Nat × Except String Unit) :=
  match events with
  | [] => []
  | e :: rest => invokeHandlers (bus.handlers e.kind) e ++ bus.publish rest

/-- A task repository snapshot (`get_by_id` / keyed storage). -/
def TaskRepo : Type := Nat → Option Task

/-- `task_repository.save`: upsert keyed by the task's own id. -/
def TaskRepo.save (repo : TaskRepo) (t : Task) : TaskRepo :=
  fun i => if i = t.id then some t else repo i

/-- `task_repository.get_by_id`. -/
def TaskRepo.get_by_id (repo : TaskRepo) (i : Nat) : Option Task :=
  repo i

/-- A project repository snapshot. -/
def ProjectRepo : Type := Nat → Option Project

/-- `project_repository.save`: upsert keyed by the project's own id. -/
def ProjectRepo.save (repo : ProjectRepo) (p : Project) : ProjectRepo :=
  fun i => if i = p.id then some p else repo i

/-- `project_repository.get_by_id`. -/
def ProjectRepo.get_by_id (repo : ProjectRepo) (i : Nat) : Option Project :=
  repo i

/-- The `for task_id in event.affected_task_ids` loop of
`TaskDeadlineAdjustmentHandler.handle`.  The whole loop body sits inside one
`try`: a `DeadlineConstraintViolation` raised by `adjust_deadline` is caught
outside the loop, so the tasks already saved stay saved and the remaining
ids are skipped. -/
def adjustLoop (repo : TaskRepo) (ids : List Nat) (new_deadline : Deadline) : TaskRepo :=
  match ids with
  | [] => repo
  | task_id :: rest =>
    match repo.get_by_id task_id with
    | none => adjustLoop repo rest new_deadline
    | some task =>
      match task.adjust_deadline new_deadline (some new_deadline) with
      | Except.error _ => repo
      | Except.ok task1 => adjustLoop (repo.save task1) rest new_deadline

/-- `TaskDeadlineAdjustmentHandler.handle`: early return (no repository
access) when `affected_task_ids` is empty; otherwise, for each affected id,
loads the task and, when present, pins its deadline to the new project
deadline via `adjust_deadline(new_deadline, new_deadline)` and saves it. -/
def TaskDeadlineAdjustmentHandler.handle (repo : TaskRepo)
    (new_deadline : Deadline) (affected_task_ids : List Nat) : TaskRepo :=
  if affected_task_ids = [] then repo
  else adjustLoop repo affected_task_ids new_deadline

/-- Application state seen by a service call: the two repositories. -/
structure AppState where
  tasks : TaskRepo
  projects : ProjectRepo

/-- `TaskService.complete_task` (`task_service.py`): load the task (absent →
`TaskNotFoundError`), `task.complete()` (already completed → the error
propagates to the caller), update the owning project's completion tracking
when there is one, save both, commit, then publish the task's collected
events through the event bus.  The returned pair is the committed state
together with the bus's invocation trace; domain errors raised before
commit are the only errors the caller can see. -/
def TaskService.complete_task (st : AppState) (bus : EventBus) (task_id : Nat)
    (now : Int) : Except DomainError (AppState × List (Nat × Except String Unit)) :=
  match st.tasks.get_by_id task_id with
  | none => Except.error (DomainError.taskNotFound task_id)
  | some task =>
    match task.complete now with
    | Except.error e => Except.error e
    | Except.ok task1 =>
      let st1 : AppState :=
        match task1.project_id with
        | some pid =>
          match st.projects.get_by_id pid with
          | some project =>
            { st with projects := st.projects.save (project.mark_task_completed task_id) }
          | none => st
        | none => st
      let events := task1.events
      let st2 : AppState := { st1 with tasks := st1.tasks.save { task1 with events := [] } }
      Except.ok (st2, bus.publish events)

/-- `TaskService.create_task` (`task_service.py`): when a project id is
given, load it (absent → `ProjectNotFoundError`); build the task via
`Task.create`; when assigned, `task.assign_to_project` (deadline violation
propagates) and `project.add_task(task_id, is_completed=False)`; save,
commit, then publish the task's and project's collected events through the
event bus.  (`generate()` for the fresh id is modelled by the `new_task_id`
argument; persisted aggregates are stored with their transient event lists
drained, as events are not persisted.) -/
def TaskService.create_task (st : AppState) (bus : EventBus) (new_task_id : Nat)
    (title description : String) (deadline : Deadline) (project_id : Option Nat) :
    Except DomainError (AppState × List (Nat × Except String Unit)) :=
  match project_id with
  | some pid =>
    match st.projects.get_by_id pid with
    | none => Except.error (DomainError.projectNotFound pid)
    | some project =>
      let task := Task.create new_task_id title description deadline (some pid)
      match task.assign_to_project pid project.deadline with
      | Except.error e => Except.error e
      | Except.ok task1 =>
        let project1 := project.add_task new_task_id false
        let events := task1.events ++ project1.events
        let st1 : AppState :=
          { tasks := st.tasks.save { task1 with events := [] },
            projects := st.projects.save { project1 with events := [] } }
        Except.ok (st1, bus.publish events)
  | none =>
    let task := Task.create new_task_id title description deadline none
    let st1 : AppState := { st with tasks := st.tasks.save { task with events := [] } }
    Except.ok (st1, bus.publish task.events)

/-- `ProjectService.complete_project` (`project_service.py`): load the
project (absent → `ProjectNotFoundError`), `project.complete()` (not
completable → the error propagates to the caller), save, commit, then
publish the project's collected events through the event bus. -/
def ProjectService.complete_project (st : AppState) (bus : EventBus)
    (project_id : Nat) :
    Except DomainError (AppState × List (Nat × Except String Unit)) :=
  match st.projects.get_by_id project_id with
  | none => Except.error (DomainError.projectNotFound project_id)
  | some project =>
    match project.complete with
    | Except.error e => Except.error e
    | Except.ok project1 =>
      let st1 : AppState :=
        { st with projects := st.projects.save { project1 with events := [] } }
      Except.ok (st1, bus.publish project1.events)

/-- One mutating `Project` operation, with its arguments: the alphabet of
the reachability statement. -/
inductive ProjectOp where
  | add_task (task_id : Nat) (is_completed : Bool)
  | add_task_for_reconstruction (task_id : Nat)
  | remove_task (task_id : Nat)
  | mark_task_completed (task_id : Nat)
  | mark_task_reopened (task_id : Nat)
  | complete
  | reopen_due_to_task (task_id : Nat)
  | update_deadline (new_deadline : Deadline) (violating_task_ids : List Nat)
  | update_details (title description : Option String)
deriving DecidableEq

/-- Apply one operation.  `complete` raises before any mutation when the
project is not completable, so the failing call leaves the project as it
was. -/
def ProjectOp.apply (p : Project) : ProjectOp → Project
  | .add_task task_id is_done => p.add_task task_id is_done
  | .add_task_for_reconstruction task_id => p.add_task_for_reconstruction task_id
  | .remove_task task_id => p.remove_task task_id
  | .mark_task_completed task_id => p.mark_task_completed task_id
  | .mark_task_reopened task_id => p.mark_task_reopened task_id
  | .complete =>
    match p.complete with
    | Except.ok p1 => p1
    | Except.error _ => p
  | .reopen_due_to_task task_id => p.reopen_due_to_task task_id
  | .update_deadline d ids => p.update_deadline d ids
  | .update_details t d => p.update_details t d

/-- Run a sequence of operations from an initial project. -/
def ProjectOp.applyAll (p : Project) (ops : List ProjectOp) : Project :=
  ops.foldl ProjectOp.apply p

/-- C1: on a completed project, `add_task(task_id, is_completed=false)`
clears the completed flag and appends exactly one `ProjectReopened` event
whose `triggering_task_id` is `task_id`; `add_task(task_id,
is_completed=true)` keeps the flag true and appends no event; in both cases
`task_id` joins the membership set. -/
theorem add_task_reopen_semantics (p : Project) (task_id : Nat)
    (h : p.completed = true) :
    ((p.add_task task_id false).completed = false ∧
      (p.add_task task_id false).events =
        p.events ++ [DomainEvent.projectReopened p.id task_id]) ∧
    ((p.add_task task_id true).completed = true ∧
      (p.add_task task_id true).events = p.events) ∧
    task_id ∈ (p.add_task task_id false).task_ids ∧
    task_id ∈ (p.add_task task_id true).task_ids := by
  simp [Project.add_task, h]

/-- Witness for C1 at a concrete completed project. -/
theorem add_task_reopen_semantics_witness :
    ((Project.init 1 "t" "d" ⟨5⟩ true).add_task 2 false).completed = false ∧
    ((Project.init 1 "t" "d" ⟨5⟩ true).add_task 2 true).completed = true :=
  ⟨(add_task_reopen_semantics (Project.init 1 "t" "d" ⟨5⟩ true) 2 rfl).1.1,
   (add_task_reopen_semantics (Project.init 1 "t" "d" ⟨5⟩ true) 2 rfl).2.1.1⟩

/-- C2: `can_be_completed()` holds iff the completed count equals the total
count (vacuously at zero members); `complete()` on a non-completable
project raises `ProjectNotCompletableError` carrying
`total_task_count - completed_task_count`, and on a completable project
sets the flag and appends a `ProjectCompleted` event.  The hypothesis is
the representation invariant of every constructed project (established
over all operation sequences by the reachability theorem for C7). -/
theorem project_completability (p : Project)
    (hsub : p.completed_task_ids ⊆ p.task_ids) :
    (p.can_be_completed = true ↔ p.completed_task_count = p.total_task_count) ∧
    (p.task_ids = ∅ → p.can_be_completed = true) ∧
    (p.can_be_completed = false →
      p.complete = Except.error (DomainError.projectNotCompletable p.id
        ((p.total_task_count : Int) - (p.completed_task_count : Int)))) ∧
    (p.can_be_completed = true →
      p.complete = Except.ok { p with
        completed := true,
        events := p.events ++ [DomainEvent.projectCompleted p.id] }) := by
  refine ⟨?_, ?_, ?_, ?_⟩
  · by_cases hempty : p.task_ids = ∅
    · have hce : p.completed_task_ids = ∅ := by
        rw [hempty] at hsub
        exact Finset.subset_empty.mp hsub
      simp [Project.can_be_completed, Project.completed_task_count,
        Project.total_task_count, hempty, hce]
    · simp [Project.can_be_completed, Project.completed_task_count,
        Project.total_task_count, hempty]
  · intro hempty
    simp [Project.can_be_completed, hempty]
  · intro hfalse
    simp [Project.complete, Project.total_task_count,
      Project.completed_task_count, hfalse]
  · intro htrue
    simp [Project.complete, htrue]

/-- Witness for C2 at a project with one member task, not yet completed. -/
theorem project_completability_witness :
    ((Project.init 1 "t" "d" ⟨5⟩ false).add_task_for_reconstruction 3).can_be_completed
      = false ∧
    ((Project.init 1 "t" "d" ⟨5⟩ false).add_task_for_reconstruction 3).complete =
      Except.error (DomainError.projectNotCompletable 1 1) := by
  have h := project_completability
    ((Project.init 1 "t" "d" ⟨5⟩ false).add_task_for_reconstruction 3) (by decide)
  have hfalse : ((Project.init 1 "t" "d" ⟨5⟩ false).add_task_for_reconstruction
      3).can_be_completed = false := by decide
  exact ⟨hfalse, h.2.2.1 hfalse⟩

/-- C6: `assign_to_project(project_id, d2)` raises
`DeadlineConstraintViolation` precisely when the task's deadline is
strictly after `d2` (the error branch produces no updated task, so the
caller's task keeps its `project_id` and pending events); when
`deadline ≤ d2` it sets the project link and appends a
`TaskAssignedToProject` event. -/
theorem assign_to_project_gate (t : Task) (project_id : Nat) (d2 : Deadline) :
    ((t.assign_to_project project_id d2).isOk = false ↔ d2.value < t.deadline.value) ∧
    (d2.value < t.deadline.value →
      t.assign_to_project project_id d2 =
        Except.error (DomainError.deadlineConstraintViolation t.deadline d2)) ∧
    (t.deadline.value ≤ d2.value →
      t.assign_to_project project_id d2 =
        Except.ok { t with
          project_id := some project_id,
          events := t.events ++ [DomainEvent.taskAssignedToProject t.id project_id] }) := by
  refine ⟨?_, ?_, ?_⟩
  · by_cases hlt : d2.value < t.deadline.value
    · simp [Task.assign_to_project, Deadline.is_after, hlt, Except.isOk, Except.toBool]
    · simp [Task.assign_to_project, Deadline.is_after, hlt, Except.isOk, Except.toBool]
  · intro hlt
    simp [Task.assign_to_project, Deadline.is_after, hlt]
  · intro hle
    simp [Task.assign_to_project, Deadline.is_after, not_lt.mpr hle]

/-- Witness for C6: a later task deadline is rejected, an equal one passes. -/
theorem assign_to_project_gate_witness :
    (Task.create 1 "t" "d" ⟨9⟩ none).assign_to_project 4 ⟨5⟩ =
      Except.error (DomainError.deadlineConstraintViolation ⟨9⟩ ⟨5⟩) ∧
    ((Task.create 1 "t" "d" ⟨9⟩ none).assign_to_project 4 ⟨9⟩).isOk = true := by
  constructor
  · exact (assign_to_project_gate (Task.create 1 "t" "d" ⟨9⟩ none) 4 ⟨5⟩).2.1 (by decide)
  · have h := (assign_to_project_gate (Task.create 1 "t" "d" ⟨9⟩ none) 4 ⟨9⟩).2.2
      (by decide)
    rw [h]
    rfl

/-- Each single operation preserves the representation invariant
`completed_task_ids ⊆ task_ids`. -/
lemma apply_preserves_subset (p : Project) (op : ProjectOp)
    (h : p.completed_task_ids ⊆ p.task_ids) :
    (ProjectOp.apply p op).completed_task_ids ⊆ (ProjectOp.apply p op).task_ids := by
  cases op with
  | add_task task_id is_done =>
    by_cases hc : p.completed = true ∧ is_done = false
    · simp [ProjectOp.apply, Project.add_task, hc.1, hc.2]
      exact h.trans (Finset.subset_insert _ _)
    · simp only [ProjectOp.apply, Project.add_task]
      by_cases hflag : (p.completed && !is_done) = true
      · simp only [hflag, if_true]
        exact h.trans (Finset.subset_insert _ _)
      · simp only [hflag, if_false]
        exact h.trans (Finset.subset_insert _ _)
  | add_task_for_reconstruction task_id =>
    simp only [ProjectOp.apply, Project.add_task_for_reconstruction]
    exact h.trans (Finset.subset_insert _ _)
  | remove_task task_id =>
    simp only [ProjectOp.apply, Project.remove_task]
    exact fun x hx => by
      rw [Finset.mem_erase] at hx ⊢
      exact ⟨hx.1, h hx.2⟩
  | mark_task_completed task_id =>
    simp only [ProjectOp.apply, Project.mark_task_completed]
    by_cases hmem : task_id ∈ p.task_ids
    · simp only [hmem, if_true]
      exact Finset.insert_subset hmem h
    · simp only [hmem, if_false]
      exact h
  | mark_task_reopened task_id =>
    simp only [ProjectOp.apply, Project.mark_task_reopened]
    exact (Finset.erase_subset _ _).trans h
  | complete =>
    simp only [ProjectOp.apply, Project.complete]
    by_cases hcan : (!p.can_be_completed) = true
    · simp only [hcan, if_true]
      exact h
    · simp only [hcan, if_false]
      exact h
  | reopen_due_to_task task_id =>
    simp only [ProjectOp.apply, Project.reopen_due_to_task]
    by_cases hcond : (p.completed && decide (task_id ∈ p.task_ids)) = true
    · simp only [hcond, if_true]
      exact h
    · simp only [hcond, if_false]
      exact h
  | update_deadline d ids =>
    simpa [ProjectOp.apply, Project.update_deadline] using h
  | update_details t d =>
    cases t <;> cases d <;> simpa [ProjectOp.apply, Project.update_details] using h

/-- The invariant holds after any operation sequence from any start that
satisfies it. -/
lemma applyAll_preserves_subset (ops : List ProjectOp) (p : Project)
    (h : p.completed_task_ids ⊆ p.task_ids) :
    (ProjectOp.applyAll p ops).completed_task_ids ⊆
      (ProjectOp.applyAll p ops).task_ids := by
  induction ops generalizing p with
  | nil => exact h
  | cons op rest ih =>
    exact ih (ProjectOp.apply p op) (apply_preserves_subset p op h)

/-- C7: every project state reachable from construction by any sequence of
`add_task`, `add_task_for_reconstruction`, `remove_task`,
`mark_task_completed`, `mark_task_reopened`, `complete`,
`reopen_due_to_task`, `update_deadline`, `update_details` satisfies
`completed_task_count ≤ total_task_count` (every id counted completed is a
current member). -/
theorem reachable_count_invariant (idv : Nat) (title description : String)
    (deadline : Deadline) (completed : Bool) (ops : List ProjectOp) :
    (ProjectOp.applyAll (Project.init idv title description deadline completed)
        ops).completed_task_count ≤
      (ProjectOp.applyAll (Project.init idv title description deadline completed)
        ops).total_task_count := by
  have hsub := applyAll_preserves_subset ops
    (Project.init idv title description deadline completed)
    (by simp [Project.init])
  exact Finset.card_le_card hsub

/-- C8: `mark_task_completed` and `mark_task_reopened` change the
completed-task subset only for a current member (a non-member id leaves the
subset unchanged), and neither appends any event.  The subset hypothesis is
the representation invariant of every constructed project (theorem for
C7). -/
theorem mark_task_membership_guard (p : Project) (task_id : Nat)
    (hsub : p.completed_task_ids ⊆ p.task_ids) :
    (task_id ∉ p.task_ids →
      (p.mark_task_completed task_id).completed_task_ids = p.completed_task_ids ∧
      (p.mark_task_reopened task_id).completed_task_ids = p.completed_task_ids) ∧
    (task_id ∈ p.task_ids →
      (p.mark_task_completed task_id).completed_task_ids =
        insert task_id p.completed_task_ids ∧
      (p.mark_task_reopened task_id).completed_task_ids =
        p.completed_task_ids.erase task_id) ∧
    (p.mark_task_completed task_id).events = p.events ∧
    (p.mark_task_reopened task_id).events = p.events := by
  refine ⟨?_, ?_, ?_, ?_⟩
  · intro hnot
    constructor
    · simp [Project.mark_task_completed, hnot]
    · have hnotc : task_id ∉ p.completed_task_ids := fun hc => hnot (hsub hc)
      simp [Project.mark_task_reopened, Finset.erase_eq_of_not_mem hnotc]
  · intro hmem
    constructor
    · simp [Project.mark_task_completed, hmem]
    · simp [Project.mark_task_reopened]
  · by_cases hmem : task_id ∈ p.task_ids <;>
      simp [Project.mark_task_completed, hmem]
  · simp [Project.mark_task_reopened]

/-- Witness for C8: a non-member id leaves the completed subset untouched. -/
theorem mark_task_membership_guard_witness :
    ((Project.init 1 "t" "d" ⟨5⟩ false).mark_task_completed 9).completed_task_ids =
      (Project.init 1 "t" "d" ⟨5⟩ false).completed_task_ids ∧
    ((Project.init 1 "t" "d" ⟨5⟩ false).mark_task_reopened 9).events =
      (Project.init 1 "t" "d" ⟨5⟩ false).events := by
  have h := mark_task_membership_guard (Project.init 1 "t" "d" ⟨5⟩ false) 9 (by decide)
  exact ⟨(h.1 (by decide)).1, h.2.2.2⟩

/-- C9: the within-window check is true exactly when
`0 ≤ deadline − now ≤ hours` (in seconds, `hours * 3600`); in particular an
overdue deadline (`is_overdue` true) is never within the window. -/
theorem within_hours_window (d : Deadline) (now hours : Int) (_hh : 0 ≤ hours) :
    (d.is_within_hours now hours = true ↔
      0 ≤ d.value - now ∧ d.value - now ≤ hours * 3600) ∧
    (d.is_overdue now = true → d.is_within_hours now hours = false) := by
  constructor
  · simp [Deadline.is_within_hours]
  · intro hover
    have hlt : d.value < now := by
      simpa [Deadline.is_overdue] using hover
    simp only [Deadline.is_within_hours, Bool.and_eq_false_iff]
    left
    simpa using not_le.mpr (by omega : d.value - now < 0)

/-- Witness for C9: a deadline 10 seconds past `now` is overdue and not
within a 24-hour window. -/
theorem within_hours_window_witness :
    (Deadline.mk 0).is_overdue 10 = true ∧
    (Deadline.mk 0).is_within_hours 10 24 = false := by
  have h := within_hours_window ⟨0⟩ 10 24 (by decide)
  exact ⟨by decide, h.2 (by decide)⟩

/-- C10: `add_task` never modifies the completed-task subset, for every
project, every task id and either value of the `is_completed` flag
(unconditionally); hence adding an already-completed task (not yet counted
in the subset) to a completed project keeps the completed flag true while
making `can_be_completed()` false, until `mark_task_completed` also records
it — as the link-task service path does.  The subset hypothesis guarding
only that consequence is the representation invariant of every constructed
project (theorem for C7). -/
theorem add_task_completed_subset_frame (p : Project) (task_id : Nat) (c : Bool) :
    (p.add_task task_id c).completed_task_ids = p.completed_task_ids ∧
    (p.completed_task_ids ⊆ p.task_ids → task_id ∉ p.completed_task_ids →
      p.completed = true →
      (p.add_task task_id true).completed = true ∧
      (p.add_task task_id true).can_be_completed = false) ∧
    ((p.add_task task_id true).mark_task_completed task_id).completed_task_ids =
      insert task_id p.completed_task_ids := by
  refine ⟨?_, ?_, ?_⟩
  · simp only [Project.add_task]
    by_cases hflag : (p.completed && !c) = true <;> simp [hflag]
  · intro hsub hnew hdone
    constructor
    · simp [Project.add_task, hdone]
    · have hlt : p.completed_task_ids.card < (insert task_id p.task_ids).card := by
        refine Finset.card_lt_card ⟨hsub.trans (Finset.subset_insert _ _), ?_⟩
        intro hcontra
        exact hnew (hcontra (Finset.mem_insert_self _ _))
      have hne : insert task_id p.task_ids ≠ (∅ : Finset Nat) :=
        Finset.insert_ne_empty _ _
      simp [Project.add_task, hdone, Project.can_be_completed, hne,
        Nat.ne_of_lt hlt]
  · simp [Project.add_task, Project.mark_task_completed, Finset.mem_insert_self]

/-- Witness for C10: linking an already-completed task (id 2) to a
completed project with one completed member (id 3) leaves the completed
subset untouched and makes `can_be_completed()` false. -/
theorem add_task_completed_subset_frame_witness :
    ((((Project.init 1 "t" "d" ⟨5⟩ true).add_task_for_reconstruction
        3).mark_task_completed 3).add_task 2 true).completed_task_ids =
      (((Project.init 1 "t" "d" ⟨5⟩ true).add_task_for_reconstruction
        3).mark_task_completed 3).completed_task_ids ∧
    ((((Project.init 1 "t" "d" ⟨5⟩ true).add_task_for_reconstruction
        3).mark_task_completed 3).add_task 2 true).can_be_completed = false := by
  have h := add_task_completed_subset_frame
    (((Project.init 1 "t" "d" ⟨5⟩ true).add_task_for_reconstruction
      3).mark_task_completed 3) 2 true
  exact ⟨h.1, (h.2.1 (by decide) (by decide) (by decide)).2⟩

/-- Pinning a deadline to itself always succeeds: `is_after` is strict, so
`adjust_deadline(d, d)` takes the non-raising branch. -/
lemma adjust_deadline_self_ok (t : Task) (d : Deadline) :
    t.adjust_deadline d (some d) =
      Except.ok { t with
        deadline := d,
        events := t.events ++
          [DomainEvent.taskDeadlineChanged t.id t.deadline d t.project_id] } := by
  simp [Task.adjust_deadline, Deadline.is_after]

/-- C3: handling a `ProjectDeadlineChanged` event with new deadline `D` and
affected ids `[T1, T2]`, both present in the repository, pins both tasks'
deadlines to exactly `D`; `adjust_deadline(D, D)` can never raise a
`DeadlineConstraintViolation` because `is_after` is strict; and with an
empty affected list the handler returns the repository unchanged. -/
theorem deadline_adjustment_pins_tasks (repo : TaskRepo) (T1 T2 : Nat)
    (t1 t2 : Task) (D : Deadline)
    (h1 : repo.get_by_id T1 = some t1) (hid1 : t1.id = T1)
    (h2 : repo.get_by_id T2 = some t2) (hid2 : t2.id = T2) :
    (((TaskDeadlineAdjustmentHandler.handle repo D [T1, T2]).get_by_id T1).map
        Task.deadline = some D) ∧
    (((TaskDeadlineAdjustmentHandler.handle repo D [T1, T2]).get_by_id T2).map
        Task.deadline = some D) ∧
    (∀ (t : Task) (d : Deadline), (t.adjust_deadline d (some d)).isOk = true) ∧
    (∀ (repo0 : TaskRepo) (d : Deadline),
      TaskDeadlineAdjustmentHandler.handle repo0 d [] = repo0) := by
  have h1' : repo T1 = some t1 := h1
  have h2' : repo T2 = some t2 := h2
  refine ⟨?_, ?_, ?_, ?_⟩
  · by_cases hTT : T2 = T1
    · subst hTT
      simp [TaskDeadlineAdjustmentHandler.handle, adjustLoop, TaskRepo.get_by_id,
        TaskRepo.save, h1', adjust_deadline_self_ok, hid1]
    · simp [TaskDeadlineAdjustmentHandler.handle, adjustLoop, TaskRepo.get_by_id,
        TaskRepo.save, h1', h2', adjust_deadline_self_ok, hid1, hid2, hTT,
        Ne.symm hTT]
  · by_cases hTT : T2 = T1
    · subst hTT
      simp [TaskDeadlineAdjustmentHandler.handle, adjustLoop, TaskRepo.get_by_id,
        TaskRepo.save, h1', adjust_deadline_self_ok, hid1]
    · simp [TaskDeadlineAdjustmentHandler.handle, adjustLoop, TaskRepo.get_by_id,
        TaskRepo.save, h1', h2', adjust_deadline_self_ok, hid1, hid2, hTT,
        Ne.symm hTT]
  · intro t d
    rw [adjust_deadline_self_ok]
    rfl
  · intro repo0 d
    simp [TaskDeadlineAdjustmentHandler.handle]

/-- Witness for C3 on a two-task repository. -/
theorem deadline_adjustment_pins_tasks_witness :
    (((TaskDeadlineAdjustmentHandler.handle
        (fun i => if i = 1 then some (Task.create 1 "a" "x" ⟨3⟩ none)
          else if i = 2 then some (Task.create 2 "b" "y" ⟨4⟩ none) else none)
        ⟨7⟩ [1, 2]).get_by_id 1).map Task.deadline = some ⟨7⟩) ∧
    (((TaskDeadlineAdjustmentHandler.handle
        (fun i => if i = 1 then some (Task.create 1 "a" "x" ⟨3⟩ none)
          else if i = 2 then some (Task.create 2 "b" "y" ⟨4⟩ none) else none)
        ⟨7⟩ [1, 2]).get_by_id 2).map Task.deadline = some ⟨7⟩) := by
  have h := deadline_adjustment_pins_tasks
    (fun i => if i = 1 then some (Task.create 1 "a" "x" ⟨3⟩ none)
      else if i = 2 then some (Task.create 2 "b" "y" ⟨4⟩ none) else none)
    1 2 (Task.create 1 "a" "x" ⟨3⟩ none) (Task.create 2 "b" "y" ⟨4⟩ none) ⟨7⟩
    rfl rfl rfl rfl
  exact ⟨h.1, h.2.1⟩

/-- The bus's inner loop records one invocation per registered handler, in
order, whatever each handler's outcome is. -/
lemma invokeHandlers_eq_map (hs : List Handler) (e : DomainEvent) :
    invokeHandlers hs e = hs.map (fun h => (h.hid, h.run e)) := by
  induction hs with
  | nil => rfl
  | cons h rest ih => simp [invokeHandlers, ih]

/-- The dispatch contract in the spec's words (§4.4): each event in list
order is delivered to every handler registered for its concrete kind, in
registration order; every such handler is invoked regardless of the
outcomes of earlier invocations. -/
def specDispatchTrace (bus : EventBus) (events : List DomainEvent) :
    List (Nat × Except String Unit) :=
  events.flatMap (fun e => (bus.handlers e.kind).map (fun h => (h.hid, h.run e)))

/-- C4: `publish` invokes, for each event in list order, every handler
registered for that event's concrete kind in registration order; a handler
exception is caught inside `publish`, so every remaining handler still runs
and `publish` never raises (its trace merely records each outcome).  In
particular, with a raising handler registered before a normal one for the
same kind, publishing one event of that kind still invokes the second
handler. -/
theorem publish_isolation :
    (∀ (bus : EventBus) (events : List DomainEvent),
      bus.publish events = specDispatchTrace bus events) ∧
    ((((EventBus.empty.register EventKind.taskCompleted
          ⟨1, fun _ => Except.error "boom"⟩).register EventKind.taskCompleted
          ⟨2, fun _ => Except.ok ()⟩).publish
        [DomainEvent.taskCompleted 9 0 none]) =
      [(1, Except.error "boom"), (2, Except.ok ())]) := by
  constructor
  · intro bus events
    induction events with
    | nil => rfl
    | cons e rest ih =>
      simp [EventBus.publish, specDispatchTrace, invokeHandlers_eq_map, ih]
  · rfl

/-- A repository-loaded open task for exercising `complete_task` (aggregates
loaded from storage carry no pending events). -/
def c5Task : Task :=
  { id := 1, title := "t", description := "d", deadline := ⟨100⟩,
    completed := false, project_id := none, events := [] }

/-- Application state holding exactly `c5Task`. -/
def c5State : AppState :=
  { tasks := fun i => if i = 1 then some c5Task else none,
    projects := fun _ => none }

/-- A bus whose only handler for `TaskCompletedEvent` raises, standing for
auto-complete handler logic that fails. -/
def c5Bus : EventBus :=
  EventBus.empty.register EventKind.taskCompleted
    ⟨7, fun _ => Except.error "handler boom"⟩

/-- Counterexample to C5: completing task 1 dispatches its
`TaskCompletedEvent` through the event bus — not through any direct handler
invocation — and although the only registered handler raises (the trace
records its exception), the service call returns success to its caller, so
the handler exception does not propagate. -/
theorem complete_task_swallows_handler_error :
    (TaskService.complete_task c5State c5Bus 1 0).isOk = true ∧
    Except.map Prod.snd (TaskService.complete_task c5State c5Bus 1 0) =
      Except.ok [(7, Except.error "handler boom")] := by
  constructor
  · rfl
  · rfl

/-- C5 (amended): in the task-creation and the task-completion and
project-completion service use cases — as in every other path — events are
dispatched through the event bus, whose per-handler catch swallows handler
exceptions; the caller-visible outcome (committed state or pre-commit
domain error) is therefore independent of the registered handlers'
behavior, and handler exceptions never reach the caller. -/
theorem service_paths_bus_isolated :
    (∀ (st : AppState) (bus bus' : EventBus) (task_id : Nat) (now : Int),
      Except.map Prod.fst (TaskService.complete_task st bus task_id now) =
        Except.map Prod.fst (TaskService.complete_task st bus' task_id now)) ∧
    (∀ (st : AppState) (bus bus' : EventBus) (new_task_id : Nat)
        (title description : String) (deadline : Deadline) (project_id : Option Nat),
      Except.map Prod.fst
          (TaskService.create_task st bus new_task_id title description deadline
            project_id) =
        Except.map Prod.fst
          (TaskService.create_task st bus' new_task_id title description deadline
            project_id)) ∧
    (∀ (st : AppState) (bus bus' : EventBus) (project_id : Nat),
      Except.map Prod.fst (ProjectService.complete_project st bus project_id) =
        Except.map Prod.fst (ProjectService.complete_project st bus' project_id)) := by
  refine ⟨?_, ?_, ?_⟩
  · intro st bus bus' task_id now
    unfold TaskService.complete_task
    split
    · rfl
    · split
      · rfl
      · rfl
  · intro st bus bus' new_task_id title description deadline project_id
    unfold TaskService.create_task
    split
    · split
      · rfl
      · dsimp only
        split
        · rfl
        · rfl
    · rfl
  · intro st bus bus' project_id
    unfold ProjectService.complete_project
    split
    · rfl
    · split
      · rfl
      · rfl

end TaskMgmt
